import Mathlib

/-!
Verification of the billing/invoice lifecycle, the bed/IPD state machines and
the appointment slot allocator of a hospital-administration backend.

The definitions below are shallow embeddings of the JavaScript source:

* `src/backend/models/Billing.js` — the `billingSchema.pre('save')` recompute
  hook and the schema's `min` validators;
* the billing controller (`createBill`, `updateBill`, `addPayment`);
* the bed controller (`updateBed`, `deleteBed`, `markMaintenance`) and the
  IPD controller (`admitPatient`, `dischargePatient`, `transferPatient`);
* the appointment controller (`createAppointment`) and the slot helpers
  (`generateTimeSlots`, `parseTime`, `formatTime`, `getAvailableSlots`).

Money amounts are modelled as exact rationals (`ℚ`); JavaScript numbers are
IEEE doubles, but every computation the theorems touch is carried out on
small decimal values where double and rational arithmetic agree.
Mongo object ids are modelled as `Nat` keys; timestamps are modelled as a
boolean "was set" flag where only their presence matters.

Definitions named `spec...` transcribe the natural-language specification
(§4.2 reference recompute, §4.6 slot tokens) and are compared against the
code-derived definitions; everything else is translated from the source.
-/

deriving instance DecidableEq for Except

attribute [local semireducible] Rat.mul Rat.add Rat.sub Rat.inv

/-- Error kinds of the spec's §7 taxonomy; the HTTP handlers return 400/404
status codes with messages, each of which the spec maps to one kind. -/
inductive ApiErr
  | notFound
  | conflict
  | invalidState
  | outOfRange
  | validationFailed
deriving DecidableEq

/-- `PAYMENT_STATUS` from `config/constants.js`:
PENDING, PARTIAL, PAID, REFUNDED (constructor names lowercased). -/
inductive PaymentStatus
  | pending
  | partialPaid
  | paid
  | refunded
deriving DecidableEq

/-- One entry of `billingSchema.services`: quantity, unitPrice, per-line
discount and the stored derived `total` (description/category omitted —
no claim mentions them). -/
structure BillService where
  quantity : ℚ
  unitPrice : ℚ
  discount : ℚ
  total : ℚ
deriving DecidableEq

/-- `billingSchema.tax`: `{ percentage, amount }`. -/
structure TaxField where
  percentage : ℚ
  amount : ℚ
deriving DecidableEq

/-- `billingSchema.discount`: `{ percentage, amount }` (reason omitted). -/
structure DiscountField where
  percentage : ℚ
  amount : ℚ
deriving DecidableEq

/-- One entry of `billingSchema.payments` (method/transactionId/notes and the
server-assigned metadata carry no constraint any claim mentions, so only the
amount is kept). -/
structure PaymentEntry where
  amount : ℚ
deriving DecidableEq

/-- The billing document (`Billing.js`), restricted to the fields the claims
are about. -/
structure Billing where
  services : List BillService
  subtotal : ℚ
  tax : TaxField
  discount : DiscountField
  totalAmount : ℚ
  paidAmount : ℚ
  balanceAmount : ℚ
  paymentStatus : PaymentStatus
  payments : List PaymentEntry
deriving DecidableEq

/-- `service.total = (service.unitPrice * service.quantity) - service.discount`
(`Billing.js` line 160, with no clamp). -/
def svcTotal (s : BillService) : ℚ := s.unitPrice * s.quantity - s.discount

/-- The pre-save hook's per-service recompute (`this.services.forEach(...)`). -/
def recomputedServices (b : Billing) : List BillService :=
  b.services.map (fun s => { s with total := svcTotal s })

/-- `this.subtotal = this.services.reduce((sum, s) => sum + s.total, 0)`. -/
def hookSubtotal (b : Billing) : ℚ :=
  ((recomputedServices b).map BillService.total).foldl (· + ·) 0

/-- `this.tax.amount = (this.subtotal * this.tax.percentage) / 100`. -/
def hookTaxAmount (b : Billing) : ℚ := hookSubtotal b * b.tax.percentage / 100

/-- `if (this.discount.percentage > 0) this.discount.amount = subtotal*pct/100`
(otherwise the stored amount is kept). -/
def hookDiscountAmount (b : Billing) : ℚ :=
  if 0 < b.discount.percentage then hookSubtotal b * b.discount.percentage / 100
  else b.discount.amount

/-- `this.totalAmount = this.subtotal + this.tax.amount - this.discount.amount`
(no floor at 0). -/
def hookTotal (b : Billing) : ℚ :=
  hookSubtotal b + hookTaxAmount b - hookDiscountAmount b

/-- The hook's status update: `if (paid >= total) PAID else if (paid > 0)
PARTIAL` — and otherwise the stored status is left unchanged. -/
def hookStatus (b : Billing) : PaymentStatus :=
  if hookTotal b ≤ b.paidAmount then .paid
  else if 0 < b.paidAmount then .partialPaid
  else b.paymentStatus

/-- The whole `billingSchema.pre('save')` recompute (`Billing.js`
lines 159–186; the invoice-id branch only generates a display string). -/
def preSaveHook (b : Billing) : Billing :=
  { b with
    services := recomputedServices b
    subtotal := hookSubtotal b
    tax := { b.tax with amount := hookTaxAmount b }
    discount := { b.discount with amount := hookDiscountAmount b }
    totalAmount := hookTotal b
    balanceAmount := hookTotal b - b.paidAmount
    paymentStatus := hookStatus b }

/-- The schema's field validators (`min` bounds of `billingSchema`), which
mongoose runs on the document *before* the pre-save hook rewrites it:
each service needs `quantity ≥ 1`, `unitPrice ≥ 0`, `discount ≥ 0`,
`total ≥ 0`; `subtotal ≥ 0`; `totalAmount ≥ 0`; `paidAmount ≥ 0`
(`balanceAmount` and the tax/discount amounts carry no bound). -/
def validateBill (b : Billing) : Prop :=
  (∀ s ∈ b.services, 1 ≤ s.quantity ∧ 0 ≤ s.unitPrice ∧ 0 ≤ s.discount ∧ 0 ≤ s.total)
  ∧ 0 ≤ b.subtotal ∧ 0 ≤ b.totalAmount ∧ 0 ≤ b.paidAmount

instance (b : Billing) : Decidable (validateBill b) := by
  unfold validateBill; infer_instance

/-- A client-supplied service line of the create request
(`{quantity, unitPrice, discount}` after the controller's
`|| 1` / `|| 0` defaulting). -/
structure SvcInput where
  quantity : ℚ
  unitPrice : ℚ
  discount : ℚ
deriving DecidableEq

/-- The billing controller's `services.map(...)` in `createBill`:
`total = unitPrice * quantity - discount` (no clamp). -/
def processService (s : SvcInput) : BillService :=
  { quantity := s.quantity, unitPrice := s.unitPrice, discount := s.discount,
    total := s.unitPrice * s.quantity - s.discount }

/-- The document `createBill` assembles before `Billing.create`: controller
recomputes subtotal/tax/discount/total itself; `balanceAmount := totalAmount`,
zero payments, schema-default status PENDING.  JS truthiness: the tax and
discount percentage branches fire on any non-zero percentage. -/
def buildBill (svcs : List SvcInput) (taxPct discPct discAmt : ℚ) : Billing :=
  let services := svcs.map processService
  let subtotal := (services.map BillService.total).foldl (· + ·) 0
  let taxAmount := if taxPct ≠ 0 then subtotal * taxPct / 100 else 0
  let discountAmount := if discPct ≠ 0 then subtotal * discPct / 100 else discAmt
  let totalAmount := subtotal + taxAmount - discountAmount
  { services := services
    subtotal := subtotal
    tax := { percentage := taxPct, amount := taxAmount }
    discount := { percentage := discPct, amount := discountAmount }
    totalAmount := totalAmount
    paidAmount := 0
    balanceAmount := totalAmount
    paymentStatus := .pending
    payments := [] }

/-- `createBill` (billing controller): assemble the document, let mongoose
validate it, then persist through the pre-save hook. -/
def createBill (svcs : List SvcInput) (taxPct discPct discAmt : ℚ) :
    Except ApiErr Billing :=
  let b := buildBill svcs taxPct discPct discAmt
  if validateBill b then .ok (preSaveHook b) else .error .validationFailed

/-- The `req.body` of a bill update, restricted to the line-item / tax /
discount edits claim C1 is about (`none` = field absent from the body). -/
structure BillUpdate where
  services : Option (List BillService)
  tax : Option TaxField
  discount : Option DiscountField
deriving DecidableEq

/-- The field application `findByIdAndUpdate(id, req.body)` performs. -/
def applyBillUpdate (b : Billing) (u : BillUpdate) : Billing :=
  { b with
    services := u.services.getD b.services
    tax := u.tax.getD b.tax
    discount := u.discount.getD b.discount }

/-- `updateBill` (billing controller): rejects fully paid bills, then runs
`findByIdAndUpdate(..., { runValidators: true })` — which triggers the update
validators on the supplied paths but *not* the `pre('save')` recompute hook. -/
def updateBill (b : Billing) (u : BillUpdate) : Except ApiErr Billing :=
  if b.paymentStatus = .paid then .error .invalidState
  else if ∀ s ∈ (u.services.getD []), 1 ≤ s.quantity ∧ 0 ≤ s.unitPrice ∧ 0 ≤ s.discount ∧ 0 ≤ s.total
  then .ok (applyBillUpdate b u)
  else .error .validationFailed

/-- The in-memory mutation `addPayment` performs on the loaded bill before
`bill.save()`: push the payment, `paidAmount += amount`,
`balanceAmount = totalAmount - paidAmount`, and set the status from the new
balance (`balance <= 0 ? PAID : PARTIAL`). -/
def payApplied (b : Billing) (amount : ℚ) : Billing :=
  let b1 : Billing :=
    { b with
      payments := b.payments ++ [{ amount := amount }]
      paidAmount := b.paidAmount + amount
      balanceAmount := b.totalAmount - (b.paidAmount + amount) }
  { b1 with
    paymentStatus := if b1.balanceAmount ≤ 0 then .paid else .partialPaid }

/-- `addPayment` (billing controller): reject PAID bills ("Bill is already
fully paid"), reject `amount > balanceAmount` ("Amount exceeds balance"),
otherwise apply the mutation and `bill.save()` — mongoose then validates the
mutated document and runs the pre-save recompute hook.  There is no
`amount > 0` check anywhere on this path. -/
def addPayment (b : Billing) (amount : ℚ) : Except ApiErr Billing :=
  if b.paymentStatus = .paid then .error .invalidState
  else if b.balanceAmount < amount then .error .outOfRange
  else if validateBill (payApplied b amount) then .ok (preSaveHook (payApplied b amount))
  else .error .validationFailed

/-- The invoice states a single bill can reach through the public billing
operations: created by `createBill`, then any interleaving of successful
`updateBill` (line-item/discount/tax edits) and `addPayment` calls. -/
inductive BillingReach : Billing → Prop
  | create (svcs : List SvcInput) (taxPct discPct discAmt : ℚ) (b : Billing) :
      createBill svcs taxPct discPct discAmt = .ok b → BillingReach b
  | update (b b' : Billing) (u : BillUpdate) :
      BillingReach b → updateBill b u = .ok b' → BillingReach b'
  | pay (b b' : Billing) (a : ℚ) :
      BillingReach b → addPayment b a = .ok b' → BillingReach b'

/-- §4.2 rule 7, transcribed from the spec: `status = paid<=0 ? PENDING :
(paid>=total ? PAID : PARTIAL)`. -/
def specStatus (paid total : ℚ) : PaymentStatus :=
  if paid ≤ 0 then .pending else if total ≤ paid then .paid else .partialPaid

/-- §4.2 rule 1, transcribed from the spec: line total clamped at ≥ 0. -/
def specLineTotal (s : BillService) : ℚ := max (s.unitPrice * s.quantity - s.discount) 0

/-- §4.2 reference recompute, transcribed from the spec (rules 1–7):
clamped line totals, subtotal, tax, percentage-or-explicit discount,
total floored at 0, balance, rule-7 status. -/
def specRecompute (b : Billing) : Billing :=
  let services := b.services.map (fun s => { s with total := specLineTotal s })
  let subtotal := (services.map BillService.total).foldl (· + ·) 0
  let taxAmount := subtotal * b.tax.percentage / 100
  let discountAmount :=
    if 0 < b.discount.percentage then subtotal * b.discount.percentage / 100
    else b.discount.amount
  let total := max (subtotal + taxAmount - discountAmount) 0
  { b with
    services := services
    subtotal := subtotal
    tax := { b.tax with amount := taxAmount }
    discount := { b.discount with amount := discountAmount }
    totalAmount := total
    balanceAmount := total - b.paidAmount
    paymentStatus := specStatus b.paidAmount total }

/-- Field-wise agreement on every derived money field §4.2 computes
(status is rule 7's separate concern). -/
def moneyFieldsEq (a b : Billing) : Prop :=
  a.services = b.services ∧ a.subtotal = b.subtotal ∧ a.tax.amount = b.tax.amount
  ∧ a.discount.amount = b.discount.amount ∧ a.totalAmount = b.totalAmount
  ∧ a.balanceAmount = b.balanceAmount

instance (a b : Billing) : Decidable (moneyFieldsEq a b) := by
  unfold moneyFieldsEq; infer_instance

/-- `BED_STATUS` from `config/constants.js`. -/
inductive BedStatus
  | available
  | occupied
  | maintenance
  | reserved
deriving DecidableEq

/-- `IPD_STATUS` from `config/constants.js`. -/
inductive IPDStatus
  | admitted
  | discharged
  | transferred
deriving DecidableEq

/-- A bed document (`Bed.js`): id, state, and the `currentPatient`
back-reference (ward/floor/rate fields carry no claim). -/
structure Bed where
  id : Nat
  status : BedStatus
  currentPatient : Option Nat
deriving DecidableEq

/-- An IPD record (`IPDRecord.js`), restricted to the fields the claims touch.
`dischargeDateSet` models whether `dischargeDate` was assigned; treatment
notes are kept as the pair of bed ids the transfer audit note interpolates. -/
structure IPDRecord where
  id : Nat
  patientId : Nat
  doctorId : Nat
  bedId : Nat
  status : IPDStatus
  dischargeDateSet : Bool
  dischargeSummary : Option String
  treatmentNotes : List (Nat × Nat)
deriving DecidableEq

/-- The collections one request handler can read and write: registered
patients, beds, IPD records, plus fresh-id counters for created documents. -/
structure HospState where
  patients : List Nat
  beds : List Bed
  records : List IPDRecord
  nextBedId : Nat
  nextRecordId : Nat
deriving DecidableEq

/-- `Bed.findById`. -/
def findBed (s : HospState) (bid : Nat) : Option Bed :=
  s.beds.find? (fun b => b.id == bid)

/-- `IPDRecord.findById`. -/
def findRecord (s : HospState) (rid : Nat) : Option IPDRecord :=
  s.records.find? (fun r => r.id == rid)

/-- Persisting a modified bed (`bed.save()` / `Bed.findByIdAndUpdate`):
the stored document with that id is replaced; a missing id is a no-op. -/
def setBed (s : HospState) (bid : Nat) (f : Bed → Bed) : HospState :=
  { s with beds := s.beds.map (fun b => if b.id = bid then f b else b) }

/-- Persisting a modified IPD record (`record.save()`). -/
def setRecord (s : HospState) (rid : Nat) (f : IPDRecord → IPDRecord) : HospState :=
  { s with records := s.records.map (fun r => if r.id = rid then f r else r) }

/-- `createPatient` (patient controller), reduced to registering the id —
only patient existence matters to the admission flow. -/
def registerPatient (s : HospState) (pid : Nat) : HospState :=
  { s with patients := s.patients ++ [pid] }

/-- The bed fields a client request body may carry into `Bed.create` /
`Bed.findByIdAndUpdate` (`none` = absent from the body). -/
structure BedBody where
  status : Option BedStatus
  currentPatient : Option (Option Nat)
deriving DecidableEq

/-- `createBed` (bed controller): `Bed.create(req.body)` — schema defaults
are AVAILABLE / null occupant, but the body may supply both fields. -/
def createBed (s : HospState) (u : BedBody) : HospState :=
  { s with
    beds := s.beds ++ [{ id := s.nextBedId,
                         status := u.status.getD .available,
                         currentPatient := u.currentPatient.getD none }]
    nextBedId := s.nextBedId + 1 }

/-- `updateBed` (bed controller, lines 90–109): 404 when missing, then
`findByIdAndUpdate(req.body)` with no guard on state or occupant. -/
def updateBed (s : HospState) (bid : Nat) (u : BedBody) : Except ApiErr HospState :=
  match findBed s bid with
  | none => .error .notFound
  | some _ => .ok (setBed s bid (fun b =>
      { b with status := u.status.getD b.status,
               currentPatient := u.currentPatient.getD b.currentPatient }))

/-- `deleteBed` (bed controller, lines 116–139): 404 when missing, Conflict
("Cannot delete an occupied bed") when OCCUPIED, else remove. -/
def deleteBed (s : HospState) (bid : Nat) : Except ApiErr HospState :=
  match findBed s bid with
  | none => .error .notFound
  | some bed =>
    if bed.status = .occupied then .error .conflict
    else .ok { s with beds := s.beds.filter (fun b => b.id ≠ bid) }

/-- `markMaintenance` (bed controller, lines 220–245): 404 when missing,
Conflict ("Cannot mark occupied bed for maintenance") when OCCUPIED, else set
MAINTENANCE (the occupant reference is not touched). -/
def markMaintenance (s : HospState) (bid : Nat) : Except ApiErr HospState :=
  match findBed s bid with
  | none => .error .notFound
  | some bed =>
    if bed.status = .occupied then .error .conflict
    else .ok (setBed s bid (fun b => { b with status := .maintenance }))

/-- The document `IPDRecord.create` inserts during admission: a fresh id,
the request's references, status ADMITTED, nothing discharged yet. -/
def newAdmission (s : HospState) (pid did bid : Nat) : IPDRecord :=
  { id := s.nextRecordId, patientId := pid, doctorId := did, bedId := bid,
    status := .admitted, dischargeDateSet := false,
    dischargeSummary := none, treatmentNotes := [] }

/-- `admitPatient` (IPD controller): 404s for missing patient/bed, Conflict
("Bed is not available") unless AVAILABLE, Conflict ("Patient is already
admitted") when an ADMITTED record for the patient exists, else create the
ADMITTED record and save the bed as OCCUPIED by the patient. -/
def admitPatient (s : HospState) (pid did bid : Nat) : Except ApiErr HospState :=
  if pid ∉ s.patients then .error .notFound
  else match findBed s bid with
  | none => .error .notFound
  | some bed =>
    if bed.status ≠ .available then .error .conflict
    else if s.records.any (fun r => r.patientId == pid && r.status == .admitted) then
      .error .conflict
    else
      .ok (setBed { s with records := s.records ++ [newAdmission s pid did bid],
                           nextRecordId := s.nextRecordId + 1 }
             bid (fun b => { b with status := .occupied, currentPatient := some pid }))

/-- `dischargePatient` (IPD controller): 404 when missing, InvalidState
("Patient is not currently admitted") unless ADMITTED, else set DISCHARGED
with discharge date and summary, and free the referenced bed via
`Bed.findByIdAndUpdate(record.bedId, { AVAILABLE, currentPatient: null })`. -/
def dischargePatient (s : HospState) (rid : Nat) (summary : String) :
    Except ApiErr HospState :=
  match findRecord s rid with
  | none => .error .notFound
  | some r =>
    if r.status ≠ .admitted then .error .invalidState
    else
      let s1 := setRecord s rid (fun r0 =>
        { r0 with status := .discharged, dischargeDateSet := true,
                  dischargeSummary := some summary })
      .ok (setBed s1 r.bedId (fun b =>
        { b with status := .available, currentPatient := none }))

/-- `transferPatient` (IPD controller, lines 767–811): 404 when the record is
missing; one combined 400 ("New bed is not available") when the new bed is
missing or not AVAILABLE; **no check on the record's status**.  Then: free the
old bed, save the new bed as OCCUPIED by the record's patient, update
`record.bedId` and push the audit note — whose interpolated "from" bed id
reads `record.bedId` *after* the reassignment, so both ids are the new bed. -/
def transferPatient (s : HospState) (rid newBid : Nat) : Except ApiErr HospState :=
  match findRecord s rid with
  | none => .error .notFound
  | some r =>
    match findBed s newBid with
    | none => .error .conflict
    | some newBed =>
      if newBed.status ≠ .available then .error .conflict
      else
        let s1 := setBed s r.bedId (fun b =>
          { b with status := .available, currentPatient := none })
        let s2 := setBed s1 newBid (fun b =>
          { b with status := .occupied, currentPatient := some r.patientId })
        .ok (setRecord s2 rid (fun r0 =>
          { r0 with bedId := newBid,
                    treatmentNotes := r0.treatmentNotes ++ [(newBid, newBid)] }))

/-- One public operation of the bed/IPD surface (claim C5's operation list,
plus patient registration which admission requires). -/
inductive HospOp
  | registerPatient (pid : Nat)
  | createBed (u : BedBody)
  | updateBed (bid : Nat) (u : BedBody)
  | deleteBed (bid : Nat)
  | markMaintenance (bid : Nat)
  | admitOp (pid did bid : Nat)
  | discharge (rid : Nat) (summary : String)
  | transfer (rid newBid : Nat)

/-- A rejected request leaves every collection unchanged. -/
def orSame (s : HospState) (r : Except ApiErr HospState) : HospState :=
  match r with
  | .ok t => t
  | .error _ => s

/-- Executing one request against the stored state. -/
def applyOp (s : HospState) (op : HospOp) : HospState :=
  match op with
  | .registerPatient pid => registerPatient s pid
  | .createBed u => createBed s u
  | .updateBed bid u => orSame s (updateBed s bid u)
  | .deleteBed bid => orSame s (deleteBed s bid)
  | .markMaintenance bid => orSame s (markMaintenance s bid)
  | .admitOp pid did bid => orSame s (admitPatient s pid did bid)
  | .discharge rid summary => orSame s (dischargePatient s rid summary)
  | .transfer rid newBid => orSame s (transferPatient s rid newBid)

/-- The empty deployment: no patients, beds or records. -/
def initState : HospState :=
  { patients := [], beds := [], records := [], nextBedId := 0, nextRecordId := 0 }

/-- The state after a request sequence against a fresh deployment. -/
def runOps (ops : List HospOp) : HospState := ops.foldl applyOp initState

/-- Reachability through the public operations (claim C5's quantifier). -/
def HospReachable (s : HospState) : Prop := ∃ ops, runOps ops = s

/-- Claim C5's first invariant: a bed is OCCUPIED iff its occupant reference
is non-null. -/
def bedOccupancyInv (s : HospState) : Prop :=
  ∀ b ∈ s.beds, (b.status = .occupied ↔ b.currentPatient ≠ none)

/-- Claim C5's second invariant: every ADMITTED stay's bed is OCCUPIED by
that stay's patient. -/
def stayCouplingInv (s : HospState) : Prop :=
  ∀ r ∈ s.records, r.status = .admitted →
    ∃ b ∈ s.beds, b.id = r.bedId ∧ b.status = .occupied
      ∧ b.currentPatient = some r.patientId

instance (s : HospState) : Decidable (bedOccupancyInv s) := by
  unfold bedOccupancyInv; infer_instance

instance (s : HospState) : Decidable (stayCouplingInv s) := by
  unfold stayCouplingInv; infer_instance

/-- `APPOINTMENT_STATUS` from `config/constants.js`. -/
inductive ApptStatus
  | scheduled
  | confirmed
  | completed
  | cancelled
  | noShow
deriving DecidableEq

/-- An appointment document (`Appointment.js`), restricted to the booking
triple and status.  `date` is the calendar day key the controller's
start-of-day/end-of-day range normalises to. -/
structure Appointment where
  patientId : Nat
  doctorId : Nat
  date : Nat
  time : String
  status : ApptStatus
deriving DecidableEq

/-- The availability query `createAppointment` issues: an appointment of the
doctor, on the same day, at the same time token, with status SCHEDULED or
CONFIRMED. -/
def slotTaken (appts : List Appointment) (did date : Nat) (time : String) : Bool :=
  appts.any (fun a =>
    a.doctorId == did && a.date == date && a.time == time
      && (a.status == .scheduled || a.status == .confirmed))

/-- The spec's notion of an occupied slot: any non-cancelled appointment at
the (doctor, date, time) triple (§4.6 booking contract). -/
def nonCancelledAt (appts : List Appointment) (did date : Nat) (time : String) : Bool :=
  appts.any (fun a =>
    a.doctorId == did && a.date == date && a.time == time && a.status != .cancelled)

/-- `createAppointment` (appointment controller, lines 130–198): 404s for
missing patient/doctor, Conflict ("This time slot is already booked") when a
SCHEDULED/CONFIRMED appointment occupies the triple, else insert the new
appointment with status SCHEDULED. -/
def createAppointment (patients doctors : List Nat) (appts : List Appointment)
    (pid did date : Nat) (time : String) : Except ApiErr (List Appointment) :=
  if pid ∉ patients then .error .notFound
  else if did ∉ doctors then .error .notFound
  else if slotTaken appts did date time then .error .conflict
  else .ok (appts ++ [{ patientId := pid, doctorId := did, date := date,
                        time := time, status := .scheduled }])

/-- Appointments with status SCHEDULED or CONFIRMED at a given triple. -/
def activeAt (appts : List Appointment) (did date : Nat) (time : String) :
    List Appointment :=
  appts.filter (fun a =>
    a.doctorId == did && a.date == date && a.time == time
      && (a.status == .scheduled || a.status == .confirmed))

/-- `timeStr.split(':')` over the string's characters: splits at every colon,
keeping empty pieces, exactly as JavaScript's `String.split`. -/
def splitColon : List Char → List Char → List (List Char)
  | [], acc => [acc.reverse]
  | c :: rest, acc =>
    if c = ':' then acc.reverse :: splitColon rest []
    else splitColon rest (c :: acc)

/-- JavaScript's `Number` on a split piece: the numeric value of an all-digit
piece; a malformed piece gives `NaN`, modelled as `none` (and consumed as 0
below — every token the claims touch is well-formed `HH:MM`). -/
def digitsToNat (cs : List Char) : Option Nat :=
  if cs.all Char.isDigit then some (cs.foldl (fun n c => n * 10 + (c.toNat - 48)) 0)
  else none

/-- `parseTime` (patient controller): split on ":", convert the first two
parts with `Number`, return hours*60+minutes. -/
def parseTime (t : String) : Nat :=
  match splitColon t.toList [] with
  | h :: m :: _ => ((digitsToNat h).getD 0) * 60 + ((digitsToNat m).getD 0)
  | _ => 0

/-- `formatTime` (patient controller): zero-pad hours and minutes to two
digits and join with ":". -/
def formatTime (minutes : Nat) : String :=
  let hours := minutes / 60
  let mins := minutes % 60
  (if hours < 10 then "0" ++ toString hours else toString hours) ++ ":"
    ++ (if mins < 10 then "0" ++ toString mins else toString mins)

/-- The `while (current < end)` loop of `generateTimeSlots`, with explicit
fuel: each iteration emits the current minute and advances by `duration`.
For any `duration ≥ 1` a fuel of `endT` iterations is enough, so the fuelled
function agrees with the source loop (which the schema's
`slotDuration ≥ 5` keeps terminating). -/
def slotLoop : Nat → Nat → Nat → Nat → List Nat
  | 0, _, _, _ => []
  | fuel + 1, cur, endT, dur =>
    if cur < endT then cur :: slotLoop fuel (cur + dur) endT dur else []

/-- `generateTimeSlots(startTime, endTime, duration)` (patient controller,
lines 598–609). -/
def generateTimeSlots (startTime endTime : String) (duration : Nat) : List String :=
  (slotLoop (parseTime endTime) (parseTime startTime) (parseTime endTime)
    duration).map formatTime

/-- One `doctor.availability` entry (`Doctor.js`): weekday name and the
window's start/end time strings. -/
structure AvailabilityWindow where
  day : String
  startTime : String
  endTime : String
deriving DecidableEq

/-- The doctor fields the slot allocator reads: the weekly availability
windows and `slotDuration` (schema default 15, min 5). -/
structure Doctor where
  availability : List AvailabilityWindow
  slotDuration : Nat
deriving DecidableEq

/-- One element of the `slots` array `getAvailableSlots` responds with:
`{ time, available: !bookedTimes.includes(time) }`. -/
structure SlotEntry where
  time : String
  available : Bool
deriving DecidableEq

/-- The payload of `getAvailableSlots`: the "doctor is not available that
day" indicator and the slot list. -/
structure SlotsResult where
  available : Bool
  slots : List SlotEntry
deriving DecidableEq

/-- `getAvailableSlots` (patient controller, lines 522–595): find the
availability window whose `day` equals the requested date's weekday name
(no window → `available: false` with an empty slot list); generate the time
tokens; mark each booked iff a SCHEDULED/CONFIRMED appointment of that doctor
on that date carries the same token.  The calendar lookup
`toLocaleDateString` is abstracted into the `dayName` argument. -/
def getAvailableSlots (doctor : Doctor) (did : Nat) (appts : List Appointment)
    (dayName : String) (date : Nat) : SlotsResult :=
  match doctor.availability.find? (fun a => a.day == dayName) with
  | none => { available := false, slots := [] }
  | some w =>
    let slots := generateTimeSlots w.startTime w.endTime doctor.slotDuration
    let bookedTimes := (appts.filter (fun a =>
      a.doctorId == did && a.date == date
        && (a.status == .scheduled || a.status == .confirmed))).map Appointment.time
    { available := true,
      slots := slots.map (fun t => { time := t, available := !(bookedTimes.contains t) }) }

/-- §4.6 transcribed from the spec: the slot tokens are `start + k·duration`
for every `k` with `start + k·duration < end`, i.e. the first
`⌈(end − start)/duration⌉` multiples. -/
def specSlotTokens (startT endT dur : Nat) : List String :=
  (List.range ((endT - startT + dur - 1) / dur)).map (fun k => formatTime (startT + k * dur))

/-- Reachability restricted to the operations that do respect the bed/stay
coupling: patient registration, bed creation with an empty body (schema
defaults AVAILABLE / null), bed deletion, maintenance marking, admission and
discharge — i.e. excluding `updateBed`/`createBed` bodies that set state or
occupant directly, and excluding `transferPatient`. -/
inductive SafeReach : HospState → Prop
  | init : SafeReach initState
  | reg (s : HospState) (pid : Nat) : SafeReach s → SafeReach (registerPatient s pid)
  | newBed (s : HospState) : SafeReach s →
      SafeReach (createBed s { status := none, currentPatient := none })
  | del (s : HospState) (bid : Nat) (s' : HospState) :
      SafeReach s → deleteBed s bid = .ok s' → SafeReach s'
  | maint (s : HospState) (bid : Nat) (s' : HospState) :
      SafeReach s → markMaintenance s bid = .ok s' → SafeReach s'
  | adm (s : HospState) (pid did bid : Nat) (s' : HospState) :
      SafeReach s → admitPatient s pid did bid = .ok s' → SafeReach s'
  | dis (s : HospState) (rid : Nat) (summary : String) (s' : HospState) :
      SafeReach s → dischargePatient s rid summary = .ok s' → SafeReach s'

/-- The inductive strengthening of claim C5's invariant: the two claimed
clauses, single-admission-per-patient, and well-formedness of the bed key
space (distinct ids, ids below the fresh-id counter). -/
def hospInv (s : HospState) : Prop :=
  bedOccupancyInv s ∧ stayCouplingInv s
  ∧ (∀ r ∈ s.records, ∀ r' ∈ s.records,
      r.status = .admitted → r'.status = .admitted → r.patientId = r'.patientId → r = r')
  ∧ (s.beds.map Bed.id).Nodup
  ∧ (∀ b ∈ s.beds, b.id < s.nextBedId)

/-- The spec's Scenario A invoice as stored after `createBill`: one
consultation line at 500, tax 10%, no discount. -/
def scenarioABill : Billing :=
  { services := [{ quantity := 1, unitPrice := 500, discount := 0, total := 500 }]
    subtotal := 500
    tax := { percentage := 10, amount := 50 }
    discount := { percentage := 0, amount := 0 }
    totalAmount := 550
    paidAmount := 0
    balanceAmount := 550
    paymentStatus := .pending
    payments := [] }

/-- The invoice `createBill` must produce for Scenario A's counterexample to
claim C1: a single zero-priced line, no tax, no discount — grand total 0. -/
def zeroTotalBill : Billing :=
  { services := [{ quantity := 1, unitPrice := 0, discount := 0, total := 0 }],
    subtotal := 0, tax := { percentage := 0, amount := 0 },
    discount := { percentage := 0, amount := 0 }, totalAmount := 0,
    paidAmount := 0, balanceAmount := 0, paymentStatus := .paid, payments := [] }

/-- Scenario C's pre-state: patient 7 registered, bed 1 AVAILABLE, no stays. -/
def scenarioCState : HospState :=
  { patients := [7], beds := [{ id := 1, status := .available, currentPatient := none }],
    records := [], nextBedId := 2, nextRecordId := 0 }

/-- Scenario D's pre-state: patient 7 ADMITTED in bed 1 (the post-state of
Scenario C's admission). -/
def scenarioDState : HospState :=
  { patients := [7], beds := [{ id := 1, status := .occupied, currentPatient := some 7 }],
    records := [{ id := 0, patientId := 7, doctorId := 3, bedId := 1, status := .admitted,
                  dischargeDateSet := false, dischargeSummary := none,
                  treatmentNotes := [] }],
    nextBedId := 2, nextRecordId := 1 }

/-- A state whose only bed is already under MAINTENANCE. -/
def maintBedState : HospState :=
  { patients := [], beds := [{ id := 0, status := .maintenance, currentPatient := none }],
    records := [], nextBedId := 1, nextRecordId := 0 }

/-- A state whose only bed is OCCUPIED by patient 9. -/
def occupiedBedState : HospState :=
  { patients := [9], beds := [{ id := 2, status := .occupied, currentPatient := some 9 }],
    records := [], nextBedId := 3, nextRecordId := 0 }

/-- A DISCHARGED stay whose stale bed reference is the AVAILABLE bed 1. -/
def dischargedStayState : HospState :=
  { patients := [7],
    beds := [{ id := 1, status := .available, currentPatient := none }],
    records := [{ id := 0, patientId := 7, doctorId := 3, bedId := 1, status := .discharged,
                  dischargeDateSet := true, dischargeSummary := some "ok",
                  treatmentNotes := [] }],
    nextBedId := 2, nextRecordId := 1 }

/-- The same DISCHARGED stay with a second AVAILABLE bed to transfer into. -/
def dischargedStayTwoBeds : HospState :=
  { patients := [7],
    beds := [{ id := 1, status := .available, currentPatient := none },
             { id := 2, status := .available, currentPatient := none }],
    records := [{ id := 0, patientId := 7, doctorId := 3, bedId := 1, status := .discharged,
                  dischargeDateSet := true, dischargeSummary := some "ok",
                  treatmentNotes := [] }],
    nextBedId := 3, nextRecordId := 1 }

/-- The post-state of registering patient 7, creating bed 0 and admitting
patient 7 to it — a coupled ADMITTED stay used to witness claim C5. -/
def admittedCoupledState : HospState :=
  { patients := [7], beds := [{ id := 0, status := .occupied, currentPatient := some 7 }],
    records := [{ id := 0, patientId := 7, doctorId := 3, bedId := 0,
                  status := .admitted, dischargeDateSet := false,
                  dischargeSummary := none, treatmentNotes := [] }],
    nextBedId := 1, nextRecordId := 1 }

/-- Scenario E's doctor: available Monday 09:00–10:00 with 30-minute slots. -/
def mondayDoctor : Doctor :=
  { availability := [{ day := "Monday", startTime := "09:00", endTime := "10:00" }],
    slotDuration := 30 }

/-- One SCHEDULED appointment of doctor 1 at day 20, 09:00. -/
def scheduledAppts : List Appointment :=
  [{ patientId := 5, doctorId := 1, date := 20, time := "09:00", status := .scheduled }]

/-- One COMPLETED — hence non-cancelled — appointment of doctor 1 at day 20,
09:00. -/
def completedAppts : List Appointment :=
  [{ patientId := 5, doctorId := 1, date := 20, time := "09:00", status := .completed }]

theorem createBill_ok {svcs : List SvcInput} {taxPct discPct discAmt : ℚ} {b : Billing}
    (h : createBill svcs taxPct discPct discAmt = .ok b) :
    b = preSaveHook (buildBill svcs taxPct discPct discAmt) := by
  by_cases hv : validateBill (buildBill svcs taxPct discPct discAmt)
  · simp [createBill, hv] at h
    exact h.symm
  · simp [createBill, hv] at h

theorem updateBill_ok {b : Billing} {u : BillUpdate} {b' : Billing}
    (h : updateBill b u = .ok b') :
    b.paymentStatus ≠ .paid ∧ b' = applyBillUpdate b u := by
  unfold updateBill at h
  split_ifs at h with h1 h2
  · exact ⟨h1, (Except.ok.inj h).symm⟩

theorem addPayment_ok {b : Billing} {a : ℚ} {b' : Billing}
    (h : addPayment b a = .ok b') :
    b.paymentStatus ≠ .paid ∧ a ≤ b.balanceAmount ∧ validateBill (payApplied b a)
      ∧ b' = preSaveHook (payApplied b a) := by
  unfold addPayment at h
  split_ifs at h with h1 h2 h3
  · exact ⟨h1, le_of_not_lt h2, h3, (Except.ok.inj h).symm⟩

/-- C1 (counterexample): the invoice produced by `createBill` for a single
zero-priced line is reachable, yet its stored status is PAID where the §4.2
rule-7 function of `paid = 0` versus `total = 0` demands PENDING — the hook
checks `paid >= total` before `paid <= 0`. -/
theorem C1_zero_total_invoice_counterexample :
    BillingReach zeroTotalBill
    ∧ zeroTotalBill.paymentStatus
        ≠ specStatus zeroTotalBill.paidAmount zeroTotalBill.totalAmount :=
  ⟨.create [{ quantity := 1, unitPrice := 0, discount := 0 }] 0 0 0 _ (by decide), by decide⟩

/-- C1 (amended): after every completed mutation through `createBill`,
`updateBill` and `addPayment`, the stored `balanceAmount` equals
`totalAmount - paidAmount`; the stored status matches §4.2 rule 7 whenever
`paidAmount > 0`, while an invoice with no recorded payment carries PENDING
only when its total is positive — a non-positive total is stored as PAID. -/
theorem C1_invoice_invariant_amended (b : Billing) (h : BillingReach b) :
    b.balanceAmount = b.totalAmount - b.paidAmount
    ∧ (0 < b.paidAmount → b.paymentStatus = specStatus b.paidAmount b.totalAmount)
    ∧ (b.payments = [] →
        b.paymentStatus = (if b.totalAmount ≤ 0 then PaymentStatus.paid else .pending)) := by
  induction h with
  | create svcs tp dp da b hc =>
    obtain rfl := createBill_ok hc
    refine ⟨rfl, ?_, ?_⟩
    · intro hpos
      have : (preSaveHook (buildBill svcs tp dp da)).paidAmount = 0 := rfl
      rw [this] at hpos
      norm_num at hpos
    · intro _
      show hookStatus (buildBill svcs tp dp da) = _
      unfold hookStatus
      have hpaid : (buildBill svcs tp dp da).paidAmount = 0 := rfl
      have hstat : (buildBill svcs tp dp da).paymentStatus = .pending := rfl
      rw [hpaid, hstat]
      have htot : (preSaveHook (buildBill svcs tp dp da)).totalAmount
          = hookTotal (buildBill svcs tp dp da) := rfl
      rw [htot]
      split_ifs with h1 h2
      · rfl
      · norm_num at h2
      · rfl
  | update b b' u hb hu ih =>
    obtain ⟨hnp, rfl⟩ := updateBill_ok hu
    have e1 : (applyBillUpdate b u).balanceAmount = b.balanceAmount := rfl
    have e2 : (applyBillUpdate b u).totalAmount = b.totalAmount := rfl
    have e3 : (applyBillUpdate b u).paidAmount = b.paidAmount := rfl
    have e4 : (applyBillUpdate b u).paymentStatus = b.paymentStatus := rfl
    have e5 : (applyBillUpdate b u).payments = b.payments := rfl
    rw [e1, e2, e3, e4, e5]
    exact ih
  | pay b b' a hb hp ih =>
    obtain ⟨hnp, hle, hval, rfl⟩ := addPayment_ok hp
    have epaid : (preSaveHook (payApplied b a)).paidAmount = b.paidAmount + a := rfl
    have etot : (preSaveHook (payApplied b a)).totalAmount = hookTotal (payApplied b a) := rfl
    have epay : (preSaveHook (payApplied b a)).payments
        = b.payments ++ [{ amount := a }] := rfl
    refine ⟨rfl, ?_, ?_⟩
    · intro hpos
      rw [epaid] at hpos
      show hookStatus (payApplied b a) = _
      rw [epaid, etot]
      unfold hookStatus specStatus
      have e6 : (payApplied b a).paidAmount = b.paidAmount + a := rfl
      rw [e6]
      split_ifs <;> first | rfl | linarith
    · intro hemp
      rw [epay] at hemp
      simp at hemp

/-- C1 (witness): the amended invariant instantiated at the Scenario A
invoice, whose reachability is discharged by evaluating `createBill`. -/
theorem C1_invoice_invariant_witness :
    scenarioABill.balanceAmount = scenarioABill.totalAmount - scenarioABill.paidAmount
    ∧ (0 < scenarioABill.paidAmount →
        scenarioABill.paymentStatus
          = specStatus scenarioABill.paidAmount scenarioABill.totalAmount)
    ∧ (scenarioABill.payments = [] →
        scenarioABill.paymentStatus
          = (if scenarioABill.totalAmount ≤ 0 then PaymentStatus.paid else .pending)) :=
  C1_invoice_invariant_amended scenarioABill
    (.create [{ quantity := 1, unitPrice := 500, discount := 0 }] 10 0 0 _ (by decide))

/-- C2 (counterexample): on an invoice whose single line has
`unitPrice 1, quantity 1, lineDiscount 5`, the save-hook recompute stores a
line total (and grand total) of `-4`, while the §4.2 reference algorithm
clamps the line at 0 and floors the total at 0 — the derived money fields
disagree. -/
theorem C2_unclamped_line_counterexample :
    ¬ moneyFieldsEq
      (preSaveHook
        { services := [{ quantity := 1, unitPrice := 1, discount := 5, total := 0 }],
          subtotal := 0, tax := { percentage := 0, amount := 0 },
          discount := { percentage := 0, amount := 0 }, totalAmount := 0,
          paidAmount := 0, balanceAmount := 0, paymentStatus := .pending, payments := [] })
      (specRecompute
        { services := [{ quantity := 1, unitPrice := 1, discount := 5, total := 0 }],
          subtotal := 0, tax := { percentage := 0, amount := 0 },
          discount := { percentage := 0, amount := 0 }, totalAmount := 0,
          paidAmount := 0, balanceAmount := 0, paymentStatus := .pending, payments := [] }) := by
  decide

/-- C2 (amended): the save-hook recompute agrees with the §4.2 reference
algorithm on every derived money field (line totals, subtotal, tax amount,
discount amount, grand total, balance) exactly when neither of the spec's two
clamps fires, i.e. when every raw line total and the raw grand total are
non-negative; the code itself performs no clamping. -/
theorem C2_recompute_matches_spec_amended (b : Billing)
    (hline : ∀ s ∈ b.services, 0 ≤ svcTotal s) (htot : 0 ≤ hookTotal b) :
    moneyFieldsEq (preSaveHook b) (specRecompute b) := by
  have hserv : b.services.map (fun s => { s with total := specLineTotal s })
      = recomputedServices b := by
    unfold recomputedServices
    refine List.map_congr_left (fun s hs => ?_)
    have h := hline s hs
    have hmax : specLineTotal s = svcTotal s := by
      unfold specLineTotal svcTotal at *
      exact max_eq_left h
    rw [hmax]
  unfold moneyFieldsEq
  simp only [preSaveHook, specRecompute, hserv]
  refine ⟨trivial, rfl, rfl, rfl, ?_, ?_⟩
  · exact (max_eq_left htot).symm
  · exact congrArg (fun x => x - b.paidAmount) (max_eq_left htot).symm

/-- C2 (witness): the amended agreement instantiated at the Scenario A
invoice (one 500-rupee line, 10% tax, no discount), whose raw line total and
raw grand total are non-negative. -/
theorem C2_recompute_matches_spec_witness :
    (∀ s ∈ scenarioABill.services, 0 ≤ svcTotal s)
    ∧ 0 ≤ hookTotal scenarioABill
    ∧ moneyFieldsEq (preSaveHook scenarioABill) (specRecompute scenarioABill) :=
  ⟨by decide, by decide, C2_recompute_matches_spec_amended scenarioABill (by decide) (by decide)⟩

/-- C3 (counterexample): `addPayment` accepts a payment of amount 0 on the
pending Scenario A invoice, although the claim requires `0 < amount` and a
rejection with OutOfRange otherwise — the controller only checks
`amount > balance`. -/
theorem C3_zero_amount_payment_counterexample :
    (addPayment scenarioABill 0).isOk = true ∧ ¬ (0 : ℚ) < 0 := by
  refine ⟨by decide, by norm_num⟩

/-- C3 (amended): on a schema-valid invoice, `addPayment` succeeds exactly
when the invoice is not PAID, the amount does not exceed the balance, and the
resulting paid total stays non-negative (mongoose's `paidAmount ≥ 0`
validator) — there is no `0 < amount` requirement.  A PAID invoice yields
InvalidState for every amount; an amount above the balance yields OutOfRange.
On success the payment entry is appended, `paidAmount` grows by the amount,
`balanceAmount = totalAmount - paidAmount` is refreshed, and a positive paid
total makes the stored status the rule-7 function of paid versus total; when
the stored totals are hook-consistent, paying exactly the balance yields
status PAID and balance 0. -/
theorem C3_addPayment_contract_amended (b : Billing) (a : ℚ) (hv : validateBill b) :
    ((addPayment b a).isOk
        ↔ (b.paymentStatus ≠ .paid ∧ a ≤ b.balanceAmount ∧ 0 ≤ b.paidAmount + a))
    ∧ (b.paymentStatus = .paid → addPayment b a = .error .invalidState)
    ∧ (b.paymentStatus ≠ .paid → b.balanceAmount < a → addPayment b a = .error .outOfRange)
    ∧ (∀ b', addPayment b a = .ok b' →
        b'.payments = b.payments ++ [{ amount := a }]
        ∧ b'.paidAmount = b.paidAmount + a
        ∧ b'.balanceAmount = b'.totalAmount - b'.paidAmount
        ∧ (0 < b'.paidAmount → b'.paymentStatus = specStatus b'.paidAmount b'.totalAmount))
    ∧ (hookTotal b = b.totalAmount → b.paymentStatus ≠ .paid →
        b.balanceAmount = b.totalAmount - b.paidAmount →
        ∃ b', addPayment b b.balanceAmount = .ok b'
          ∧ b'.paymentStatus = .paid ∧ b'.balanceAmount = 0) := by
  have hvp : ∀ x : ℚ, validateBill (payApplied b x) ↔ 0 ≤ b.paidAmount + x := by
    intro x
    constructor
    · rintro ⟨-, -, -, h4⟩
      exact h4
    · intro h4
      exact ⟨hv.1, hv.2.1, hv.2.2.1, h4⟩
  refine ⟨?_, ?_, ?_, ?_, ?_⟩
  · by_cases h1 : b.paymentStatus = .paid
    · simp [addPayment, h1, Except.isOk, Except.toBool]
    · by_cases h2 : b.balanceAmount < a
      · simp [addPayment, h1, h2, Except.isOk, Except.toBool]
      · by_cases h3 : validateBill (payApplied b a)
        · rw [addPayment, if_neg h1, if_neg h2, if_pos h3]
          exact iff_of_true rfl ⟨h1, le_of_not_lt h2, (hvp a).mp h3⟩
        · simp [addPayment, h1, h2, h3, Except.isOk, Except.toBool]
          intro _
          exact not_le.mp (fun hx => h3 ((hvp a).mpr hx))
  · intro h1
    simp [addPayment, h1]
  · intro h1 h2
    simp [addPayment, h1, h2]
  · intro b' hok
    obtain ⟨hnp, hle, hval, rfl⟩ := addPayment_ok hok
    have epaid : (preSaveHook (payApplied b a)).paidAmount = b.paidAmount + a := rfl
    have etot : (preSaveHook (payApplied b a)).totalAmount = hookTotal (payApplied b a) := rfl
    refine ⟨rfl, rfl, rfl, ?_⟩
    · intro hpos
      rw [epaid] at hpos
      show hookStatus (payApplied b a) = _
      rw [epaid, etot]
      unfold hookStatus specStatus
      have e6 : (payApplied b a).paidAmount = b.paidAmount + a := rfl
      rw [e6]
      split_ifs <;> first | rfl | linarith
  · intro hcons hnp hbal
    have hpball : b.paidAmount + b.balanceAmount = b.totalAmount := by
      rw [hbal]; ring
    have hok : addPayment b b.balanceAmount
        = .ok (preSaveHook (payApplied b b.balanceAmount)) := by
      have h2 : ¬ b.balanceAmount < b.balanceAmount := lt_irrefl _
      have h3 : validateBill (payApplied b b.balanceAmount) := by
        refine (hvp _).mpr ?_
        rw [hpball]
        exact hv.2.2.1
      simp [addPayment, hnp, h2, h3]
    refine ⟨_, hok, ?_, ?_⟩
    · show hookStatus (payApplied b b.balanceAmount) = .paid
      unfold hookStatus
      have e6 : (payApplied b b.balanceAmount).paidAmount
          = b.paidAmount + b.balanceAmount := rfl
      have e7 : hookTotal (payApplied b b.balanceAmount) = hookTotal b := rfl
      rw [e6, e7, hcons, hpball]
      simp
    · show hookTotal (payApplied b b.balanceAmount)
          - (payApplied b b.balanceAmount).paidAmount = 0
      have e6 : (payApplied b b.balanceAmount).paidAmount
          = b.paidAmount + b.balanceAmount := rfl
      have e7 : hookTotal (payApplied b b.balanceAmount) = hookTotal b := rfl
      rw [e6, e7, hcons, hpball]
      ring

/-- C3 (witness): the amended contract instantiated at the Scenario A
invoice; its boundary clause produces the Scenario B outcome — paying the
full balance of 550 drives the status to PAID and the balance to 0. -/
theorem C3_addPayment_contract_witness :
    ∃ b', addPayment scenarioABill scenarioABill.balanceAmount = .ok b'
      ∧ b'.paymentStatus = .paid ∧ b'.balanceAmount = 0 :=
  (C3_addPayment_contract_amended scenarioABill 550 (by decide)).2.2.2.2
    (by decide) (by decide) (by decide)


theorem findBed_mem {s : HospState} {bid : Nat} {b : Bed} (h : findBed s bid = some b) :
    b ∈ s.beds :=
  List.mem_of_find?_eq_some h

theorem findBed_id {s : HospState} {bid : Nat} {b : Bed} (h : findBed s bid = some b) :
    b.id = bid := by
  have := List.find?_some h
  simpa using this

theorem findRecord_mem {s : HospState} {rid : Nat} {r : IPDRecord}
    (h : findRecord s rid = some r) : r ∈ s.records :=
  List.mem_of_find?_eq_some h

theorem findRecord_id {s : HospState} {rid : Nat} {r : IPDRecord}
    (h : findRecord s rid = some r) : r.id = rid := by
  have := List.find?_some h
  simpa using this

/-- C4: for a registered patient, `admitPatient` fails with Conflict when the
target bed is not AVAILABLE; fails with Conflict when the patient already has
an ADMITTED stay; and otherwise creates an ADMITTED stay on that bed and
stores the bed as OCCUPIED with the patient as occupant. -/
theorem C4_admitPatient_contract (s : HospState) (pid did bid : Nat) (hp : pid ∈ s.patients) :
    (∀ bed, findBed s bid = some bed → bed.status ≠ .available →
        admitPatient s pid did bid = .error .conflict)
    ∧ ((∃ r ∈ s.records, r.patientId = pid ∧ r.status = .admitted) →
        (findBed s bid).isSome → admitPatient s pid did bid = .error .conflict)
    ∧ (∀ bed, findBed s bid = some bed → bed.status = .available →
        (∀ r ∈ s.records, ¬(r.patientId = pid ∧ r.status = .admitted)) →
        ∃ s', admitPatient s pid did bid = .ok s'
          ∧ (∃ r ∈ s'.records, r.patientId = pid ∧ r.status = .admitted ∧ r.bedId = bid)
          ∧ (∀ b ∈ s'.beds, b.id = bid →
              b.status = .occupied ∧ b.currentPatient = some pid)) := by
  refine ⟨?_, ?_, ?_⟩
  · intro bed hbed hnav
    simp [admitPatient, hp, hbed, hnav]
  · rintro ⟨r, hr, hrp, hrs⟩ hsome
    obtain ⟨bed, hbed⟩ := Option.isSome_iff_exists.mp hsome
    by_cases hav : bed.status = .available
    · have hany : s.records.any (fun r => r.patientId == pid && r.status == .admitted) = true := by
        rw [List.any_eq_true]
        exact ⟨r, hr, by simp [hrp, hrs]⟩
      simp [admitPatient, hp, hbed, hav, hany]
    · simp [admitPatient, hp, hbed, hav]
  · intro bed hbed hav hno
    have hany : s.records.any (fun r => r.patientId == pid && r.status == .admitted) = false := by
      rw [List.any_eq_false]
      intro r hr
      simp only [Bool.and_eq_true, beq_iff_eq]
      rintro ⟨h1, h2⟩
      exact hno r hr ⟨h1, h2⟩
    refine ⟨setBed { s with records := s.records ++ [newAdmission s pid did bid],
                            nextRecordId := s.nextRecordId + 1 }
        bid (fun b => { b with status := .occupied, currentPatient := some pid }),
      ?_, ?_, ?_⟩
    · simp [admitPatient, hp, hbed, hav, hany]
    · refine ⟨newAdmission s pid did bid, ?_, rfl, rfl, rfl⟩
      show _ ∈ s.records ++ [_]
      exact List.mem_append_right _ (List.mem_singleton.mpr rfl)
    · intro b hb hbid
      obtain ⟨b0, hb0, rfl⟩ := List.mem_map.mp hb
      by_cases h0 : b0.id = bid
      · rw [if_pos h0]
        exact ⟨rfl, rfl⟩
      · rw [if_neg h0] at hbid ⊢
        exact absurd hbid h0

/-- C4 (witness): Scenario C — admitting patient 7 to AVAILABLE bed 1 yields
an ADMITTED stay and an OCCUPIED bed with occupant 7. -/
theorem C4_admitPatient_witness :
    ∃ s', admitPatient scenarioCState 7 3 1 = .ok s'
      ∧ (∃ r ∈ s'.records, r.patientId = 7 ∧ r.status = .admitted ∧ r.bedId = 1)
      ∧ (∀ b ∈ s'.beds, b.id = 1 → b.status = .occupied ∧ b.currentPatient = some 7) :=
  (C4_admitPatient_contract scenarioCState 7 3 1 (by decide)).2.2
    { id := 1, status := .available, currentPatient := none } (by decide) rfl (by decide)

/-- C6: `dischargePatient` fails with InvalidState when the stay is not
ADMITTED; otherwise it stores the stay as DISCHARGED with the discharge date
set and the summary recorded, and every bed carrying the stay's bed id
becomes AVAILABLE with a null occupant. -/
theorem C6_discharge_contract (s : HospState) (rid : Nat) (summary : String) :
    (∀ r, findRecord s rid = some r → r.status ≠ .admitted →
        dischargePatient s rid summary = .error .invalidState)
    ∧ (∀ r, findRecord s rid = some r → r.status = .admitted →
        ∃ s', dischargePatient s rid summary = .ok s'
          ∧ (∀ r' ∈ s'.records, r'.id = rid →
              r'.status = .discharged ∧ r'.dischargeDateSet = true
                ∧ r'.dischargeSummary = some summary)
          ∧ (∀ b ∈ s'.beds, b.id = r.bedId →
              b.status = .available ∧ b.currentPatient = none)) := by
  refine ⟨?_, ?_⟩
  · intro r hr hna
    simp [dischargePatient, hr, hna]
  · intro r hr hadm
    refine ⟨setBed (setRecord s rid (fun r0 =>
        { r0 with status := .discharged, dischargeDateSet := true,
                  dischargeSummary := some summary })) r.bedId
        (fun b => { b with status := .available, currentPatient := none }),
      ?_, ?_, ?_⟩
    · simp [dischargePatient, hr, hadm]
    · intro r' hr' hid
      obtain ⟨r0, hr0, rfl⟩ := List.mem_map.mp hr'
      by_cases h0 : r0.id = rid
      · rw [if_pos h0]
        exact ⟨rfl, rfl, rfl⟩
      · rw [if_neg h0] at hid ⊢
        exact absurd hid h0
    · intro b hb hbid
      obtain ⟨b0, hb0, rfl⟩ := List.mem_map.mp hb
      by_cases h0 : b0.id = r.bedId
      · rw [if_pos h0]
        exact ⟨rfl, rfl⟩
      · rw [if_neg h0] at hbid ⊢
        exact absurd hbid h0

/-- C6 (witness): Scenario D — discharging the ADMITTED stay of Scenario C
stores it DISCHARGED with a discharge date and frees bed 1. -/
theorem C6_discharge_witness :
    ∃ s', dischargePatient scenarioDState 0 "recovered" = .ok s'
      ∧ (∀ r' ∈ s'.records, r'.id = 0 →
          r'.status = .discharged ∧ r'.dischargeDateSet = true
            ∧ r'.dischargeSummary = some "recovered")
      ∧ (∀ b ∈ s'.beds, b.id = 1 → b.status = .available ∧ b.currentPatient = none) :=
  (C6_discharge_contract scenarioDState 0 "recovered").2
    { id := 0, patientId := 7, doctorId := 3, bedId := 1, status := .admitted,
      dischargeDateSet := false, dischargeSummary := none, treatmentNotes := [] }
    (by decide) rfl

/-- C9 (counterexample): on a bed already in MAINTENANCE state —
neither AVAILABLE nor RESERVED — `markMaintenance` succeeds, so the claim
that it succeeds only from AVAILABLE or RESERVED is false; the controller
only rejects OCCUPIED beds. -/
theorem C9_maintenance_state_counterexample :
    (markMaintenance maintBedState 0).isOk = true
    ∧ BedStatus.maintenance ≠ .available ∧ BedStatus.maintenance ≠ .reserved := by
  refine ⟨by decide, by decide, by decide⟩

/-- C9 (amended): `markMaintenance` and `deleteBed` on an existing bed each
succeed exactly when the bed is not OCCUPIED (so also from MAINTENANCE), and
each fails with Conflict when it is OCCUPIED — a bed is never deleted or put
into MAINTENANCE while OCCUPIED. -/
theorem C9_maintenance_delete_guard_amended (s : HospState) (bid : Nat) (bed : Bed)
    (h : findBed s bid = some bed) :
    ((markMaintenance s bid).isOk ↔ bed.status ≠ .occupied)
    ∧ ((deleteBed s bid).isOk ↔ bed.status ≠ .occupied)
    ∧ (bed.status = .occupied →
        markMaintenance s bid = .error .conflict ∧ deleteBed s bid = .error .conflict) := by
  by_cases hocc : bed.status = .occupied
  · simp [markMaintenance, deleteBed, h, hocc, Except.isOk, Except.toBool]
  · simp [markMaintenance, deleteBed, h, hocc, Except.isOk, Except.toBool]

/-- C9 (witness): the amended guard instantiated at an OCCUPIED bed — both
operations are rejected with Conflict. -/
theorem C9_maintenance_delete_guard_witness :
    markMaintenance occupiedBedState 2 = .error .conflict
    ∧ deleteBed occupiedBedState 2 = .error .conflict :=
  (C9_maintenance_delete_guard_amended occupiedBedState 2
    { id := 2, status := .occupied, currentPatient := some 9 } (by decide)).2.2 rfl

/-- C10 (counterexample): transferring a DISCHARGED stay to the very bed its
stale reference points at (bed 1, AVAILABLE) succeeds, but the final state
leaves that old bed OCCUPIED with the patient as occupant — not AVAILABLE
with a null occupant as the claim asserts of the old bed — because the
"free old bed" write is overwritten by the "assign new bed" write. -/
theorem C10_transfer_same_bed_counterexample :
    transferPatient dischargedStayState 0 1
      = .ok { patients := [7],
              beds := [{ id := 1, status := .occupied, currentPatient := some 7 }],
              records := [{ id := 0, patientId := 7, doctorId := 3, bedId := 1,
                            status := .discharged, dischargeDateSet := true,
                            dischargeSummary := some "ok", treatmentNotes := [(1, 1)] }],
              nextBedId := 2, nextRecordId := 1 } := by
  decide

/-- C10 (amended): `transferPatient` performs no check on the stay's state:
for every existing stay, whatever its state (including DISCHARGED), if the
requested new bed exists, is AVAILABLE and differs from the stay's current
bed reference, the transfer succeeds — the old bed becomes AVAILABLE with a
null occupant, the new bed becomes OCCUPIED by the stay's patient, and the
stay keeps its state while its bed reference moves and an audit note is
appended (both interpolated ids being the new bed's, since the reference is
reassigned before the note is built).  When the new bed coincides with the
stay's current bed, the bed ends OCCUPIED instead. -/
theorem C10_transfer_amended (s : HospState) (rid newBid : Nat) (r : IPDRecord) (newBed : Bed)
    (hr : findRecord s rid = some r) (hb : findBed s newBid = some newBed)
    (hav : newBed.status = .available) (hne : newBid ≠ r.bedId) :
    ∃ s', transferPatient s rid newBid = .ok s'
      ∧ (∀ b ∈ s'.beds, b.id = r.bedId → b.status = .available ∧ b.currentPatient = none)
      ∧ (∀ b ∈ s'.beds, b.id = newBid →
          b.status = .occupied ∧ b.currentPatient = some r.patientId)
      ∧ (∀ r' ∈ s.records, r'.id = rid →
          { r' with bedId := newBid, treatmentNotes := r'.treatmentNotes ++ [(newBid, newBid)] }
            ∈ s'.records) := by
  refine ⟨setRecord (setBed (setBed s r.bedId (fun b =>
      { b with status := .available, currentPatient := none })) newBid (fun b =>
      { b with status := .occupied, currentPatient := some r.patientId })) rid (fun r0 =>
      { r0 with bedId := newBid,
                treatmentNotes := r0.treatmentNotes ++ [(newBid, newBid)] }),
    ?_, ?_, ?_, ?_⟩
  · simp [transferPatient, hr, hb, hav]
  · intro b hb' hbid
    obtain ⟨b1, hb1, rfl⟩ := List.mem_map.mp hb'
    obtain ⟨b0, hb0, rfl⟩ := List.mem_map.mp hb1
    rcases eq_or_ne b0.id r.bedId with h0 | h0
    · simp [h0, hne, Ne.symm hne]
    · rcases eq_or_ne b0.id newBid with h1 | h1
      · simp [h0, h1, hne, Ne.symm hne] at hbid
      · simp [h0, h1] at hbid
  · intro b hb' hbid
    obtain ⟨b1, hb1, rfl⟩ := List.mem_map.mp hb'
    obtain ⟨b0, hb0, rfl⟩ := List.mem_map.mp hb1
    rcases eq_or_ne b0.id r.bedId with h0 | h0
    · simp [h0, hne, Ne.symm hne] at hbid
    · rcases eq_or_ne b0.id newBid with h1 | h1
      · simp [h0, h1, hne, Ne.symm hne]
      · simp [h0, h1] at hbid
  · intro r' hr' hid
    have hmem := List.mem_map_of_mem (fun r0 => if r0.id = rid then
        { r0 with bedId := newBid,
                  treatmentNotes := r0.treatmentNotes ++ [(newBid, newBid)] } else r0) hr'
    have happ : (fun r0 => if r0.id = rid then
        { r0 with bedId := newBid,
                  treatmentNotes := r0.treatmentNotes ++ [(newBid, newBid)] } else r0) r'
        = { r' with bedId := newBid,
                    treatmentNotes := r'.treatmentNotes ++ [(newBid, newBid)] } := by
      simp [hid]
    rw [happ] at hmem
    exact hmem

/-- C10 (witness): transferring the DISCHARGED stay from bed 1 into the
distinct AVAILABLE bed 2 succeeds: bed 1 ends AVAILABLE and empty, bed 2 ends
OCCUPIED by patient 7, and the stay keeps its DISCHARGED state with the audit
note appended. -/
theorem C10_transfer_witness :
    ∃ s', transferPatient dischargedStayTwoBeds 0 2 = .ok s'
      ∧ (∀ b ∈ s'.beds, b.id = 1 → b.status = .available ∧ b.currentPatient = none)
      ∧ (∀ b ∈ s'.beds, b.id = 2 → b.status = .occupied ∧ b.currentPatient = some 7)
      ∧ (∀ r' ∈ dischargedStayTwoBeds.records, r'.id = 0 →
          { r' with bedId := 2, treatmentNotes := r'.treatmentNotes ++ [(2, 2)] }
            ∈ s'.records) :=
  C10_transfer_amended dischargedStayTwoBeds 0 2
    { id := 0, patientId := 7, doctorId := 3, bedId := 1, status := .discharged,
      dischargeDateSet := true, dischargeSummary := some "ok", treatmentNotes := [] }
    { id := 2, status := .available, currentPatient := none }
    (by decide) (by decide) rfl (by decide)


theorem bedsUnique {s : HospState} (hn : (s.beds.map Bed.id).Nodup)
    {b b' : Bed} (hb : b ∈ s.beds) (hb' : b' ∈ s.beds) (hid : b.id = b'.id) : b = b' :=
  List.inj_on_of_nodup_map hn hb hb' hid

theorem setBed_ids (s : HospState) (bid : Nat) (f : Bed → Bed)
    (hf : ∀ b, (f b).id = b.id) :
    (setBed s bid f).beds.map Bed.id = s.beds.map Bed.id := by
  show (s.beds.map (fun b => if b.id = bid then f b else b)).map Bed.id = _
  rw [List.map_map]
  refine List.map_congr_left (fun b hb => ?_)
  by_cases h0 : b.id = bid
  · simp [h0, hf]
  · simp [h0]

theorem deleteBed_ok {s : HospState} {bid : Nat} {s' : HospState}
    (h : deleteBed s bid = .ok s') :
    ∃ bed, findBed s bid = some bed ∧ bed.status ≠ .occupied
      ∧ s' = { s with beds := s.beds.filter (fun b => b.id ≠ bid) } := by
  unfold deleteBed at h
  cases hf : findBed s bid with
  | none =>
    simp [hf] at h
  | some bed =>
    simp only [hf] at h
    split_ifs at h with h1
    exact ⟨bed, rfl, h1, (Except.ok.inj h).symm⟩

theorem markMaintenance_ok {s : HospState} {bid : Nat} {s' : HospState}
    (h : markMaintenance s bid = .ok s') :
    ∃ bed, findBed s bid = some bed ∧ bed.status ≠ .occupied
      ∧ s' = setBed s bid (fun b => { b with status := .maintenance }) := by
  unfold markMaintenance at h
  cases hf : findBed s bid with
  | none =>
    simp [hf] at h
  | some bed =>
    simp only [hf] at h
    split_ifs at h with h1
    exact ⟨bed, rfl, h1, (Except.ok.inj h).symm⟩

theorem admitPatient_ok {s : HospState} {pid did bid : Nat} {s' : HospState}
    (h : admitPatient s pid did bid = .ok s') :
    pid ∈ s.patients
      ∧ ∃ bed, findBed s bid = some bed ∧ bed.status = .available
      ∧ (∀ r ∈ s.records, ¬(r.patientId = pid ∧ r.status = .admitted))
      ∧ s' = setBed { s with records := s.records ++ [newAdmission s pid did bid],
                             nextRecordId := s.nextRecordId + 1 }
               bid (fun b => { b with status := .occupied, currentPatient := some pid }) := by
  unfold admitPatient at h
  by_cases hp : pid ∉ s.patients
  · rw [if_pos hp] at h
    cases h
  · rw [if_neg hp] at h
    cases hf : findBed s bid with
    | none =>
      simp [hf] at h
    | some bed =>
      simp only [hf] at h
      by_cases h1 : bed.status ≠ .available
      · rw [if_pos h1] at h
        cases h
      · rw [if_neg h1] at h
        by_cases h2 : s.records.any (fun r => r.patientId == pid && r.status == .admitted) = true
        · rw [if_pos h2] at h
          cases h
        · rw [if_neg h2] at h
          refine ⟨not_not.mp hp, bed, rfl, not_not.mp h1, ?_, (Except.ok.inj h).symm⟩
          intro r hr hcontra
          refine h2 ?_
          rw [List.any_eq_true]
          exact ⟨r, hr, by simp [hcontra.1, hcontra.2]⟩

theorem dischargePatient_ok {s : HospState} {rid : Nat} {summary : String} {s' : HospState}
    (h : dischargePatient s rid summary = .ok s') :
    ∃ r, findRecord s rid = some r ∧ r.status = .admitted
      ∧ s' = setBed (setRecord s rid (fun r0 =>
          { r0 with status := .discharged, dischargeDateSet := true,
                    dischargeSummary := some summary })) r.bedId
          (fun b => { b with status := .available, currentPatient := none }) := by
  unfold dischargePatient at h
  cases hf : findRecord s rid with
  | none =>
    simp [hf] at h
  | some r =>
    simp only [hf] at h
    split_ifs at h with h1
    exact ⟨r, rfl, not_not.mp (by simpa using h1), (Except.ok.inj h).symm⟩

theorem hospInv_init : hospInv initState := by
  refine ⟨?_, ?_, ?_, ?_, ?_⟩ <;> simp [initState, bedOccupancyInv, stayCouplingInv]

theorem hospInv_reg {s : HospState} (h : hospInv s) (pid : Nat) :
    hospInv (registerPatient s pid) := h

theorem hospInv_newBed {s : HospState} (h : hospInv s) :
    hospInv (createBed s { status := none, currentPatient := none }) := by
  obtain ⟨hocc, hcpl, hsgl, hnd, hbd⟩ := h
  refine ⟨?_, ?_, hsgl, ?_, ?_⟩
  · intro b hb
    rcases List.mem_append.mp hb with h1 | h1
    · exact hocc b h1
    · rw [List.mem_singleton.mp h1]
      simp
  · intro r hr hadm
    obtain ⟨b, hb, hb1, hb2, hb3⟩ := hcpl r hr hadm
    exact ⟨b, List.mem_append_left _ hb, hb1, hb2, hb3⟩
  · show ((s.beds ++ [({ id := s.nextBedId, status := .available, currentPatient := none } : Bed)]).map Bed.id).Nodup
    rw [List.map_append]
    rw [List.nodup_append]
    refine ⟨hnd, List.nodup_singleton _, ?_⟩
    intro x hx
    simp only [List.map_singleton, List.mem_singleton]
    obtain ⟨b, hb, rfl⟩ := List.mem_map.mp hx
    exact fun he => absurd (he ▸ hbd b hb) (lt_irrefl _)
  · intro b hb
    rcases List.mem_append.mp hb with h1 | h1
    · exact Nat.lt_succ_of_lt (hbd b h1)
    · rw [List.mem_singleton.mp h1]
      exact Nat.lt_succ_self _

theorem hospInv_deleteBed {s s' : HospState} {bid : Nat}
    (hinv : hospInv s) (h : deleteBed s bid = .ok s') : hospInv s' := by
  obtain ⟨hocc, hcpl, hsgl, hnd, hbd⟩ := hinv
  obtain ⟨bed, hf, hno, rfl⟩ := deleteBed_ok h
  have hmem := findBed_mem hf
  have hid := findBed_id hf
  refine ⟨?_, ?_, hsgl, ?_, ?_⟩
  · intro b hb
    exact hocc b (List.mem_of_mem_filter hb)
  · intro r hr hadm
    obtain ⟨b, hb, hb1, hb2, hb3⟩ := hcpl r hr hadm
    have hne : b.id ≠ bid := by
      intro he
      have hbb : b = bed := bedsUnique hnd hb hmem (he.trans hid.symm)
      rw [hbb] at hb2
      exact hno hb2
    refine ⟨b, ?_, hb1, hb2, hb3⟩
    exact List.mem_filter.mpr ⟨hb, by simpa using hne⟩
  · have hsub : List.Sublist ((s.beds.filter (fun b => b.id ≠ bid)).map Bed.id)
        (s.beds.map Bed.id) :=
      (List.filter_sublist s.beds).map Bed.id
    exact List.Nodup.sublist hsub hnd
  · intro b hb
    exact hbd b (List.mem_of_mem_filter hb)

theorem hospInv_maint {s s' : HospState} {bid : Nat}
    (hinv : hospInv s) (h : markMaintenance s bid = .ok s') : hospInv s' := by
  obtain ⟨hocc, hcpl, hsgl, hnd, hbd⟩ := hinv
  obtain ⟨bed, hf, hno, rfl⟩ := markMaintenance_ok h
  have hmem := findBed_mem hf
  have hid := findBed_id hf
  refine ⟨?_, ?_, hsgl, ?_, ?_⟩
  · intro b hb
    obtain ⟨b0, hb0, rfl⟩ := List.mem_map.mp hb
    by_cases h0 : b0.id = bid
    · rw [if_pos h0]
      have hb0eq : b0 = bed := bedsUnique hnd hb0 hmem (h0.trans hid.symm)
      have hnotocc : b0.status ≠ .occupied := by
        rw [hb0eq]
        exact hno
      have hcp : b0.currentPatient = none := by
        by_contra hc
        exact hnotocc ((hocc b0 hb0).mpr hc)
      simp [hcp]
    · rw [if_neg h0]
      exact hocc b0 hb0
  · intro r hr hadm
    obtain ⟨b, hb, hb1, hb2, hb3⟩ := hcpl r hr hadm
    have hne : b.id ≠ bid := by
      intro he
      have hbb : b = bed := bedsUnique hnd hb hmem (he.trans hid.symm)
      rw [hbb] at hb2
      exact hno hb2
    refine ⟨b, ?_, hb1, hb2, hb3⟩
    have hmm := List.mem_map_of_mem
      (fun b => if b.id = bid then { b with status := BedStatus.maintenance } else b) hb
    simp only [if_neg hne] at hmm
    exact hmm
  · rw [setBed_ids s bid (fun b => { b with status := BedStatus.maintenance }) (fun b => rfl)]
    exact hnd
  · intro b hb
    obtain ⟨b0, hb0, rfl⟩ := List.mem_map.mp hb
    by_cases h0 : b0.id = bid
    · rw [if_pos h0]
      exact hbd b0 hb0
    · rw [if_neg h0]
      exact hbd b0 hb0

theorem hospInv_admitPatient {s s' : HospState} {pid did bid : Nat}
    (hinv : hospInv s) (h : admitPatient s pid did bid = .ok s') : hospInv s' := by
  obtain ⟨hocc, hcpl, hsgl, hnd, hbd⟩ := hinv
  obtain ⟨hp, bed, hf, hav, hno, rfl⟩ := admitPatient_ok h
  have hmem := findBed_mem hf
  have hid := findBed_id hf
  refine ⟨?_, ?_, ?_, ?_, ?_⟩
  · intro b hb
    obtain ⟨b0, hb0, rfl⟩ := List.mem_map.mp hb
    by_cases h0 : b0.id = bid
    · simp [h0]
    · rw [if_neg h0]
      exact hocc b0 hb0
  · intro r hr hadm
    rcases List.mem_append.mp hr with h1 | h1
    · obtain ⟨b, hb, hb1, hb2, hb3⟩ := hcpl r h1 hadm
      have hne : b.id ≠ bid := by
        intro he
        have hbb : b = bed := bedsUnique hnd hb hmem (he.trans hid.symm)
        rw [hbb, hav] at hb2
        cases hb2
      refine ⟨b, ?_, hb1, hb2, hb3⟩
      have hmm := List.mem_map_of_mem
        (fun b => if b.id = bid then
          { b with status := BedStatus.occupied, currentPatient := some pid } else b) hb
      simp only [if_neg hne] at hmm
      exact hmm
    · rw [List.mem_singleton.mp h1]
      refine ⟨{ bed with status := .occupied, currentPatient := some pid }, ?_, hid, rfl, rfl⟩
      have hmm := List.mem_map_of_mem
        (fun b => if b.id = bid then
          { b with status := BedStatus.occupied, currentPatient := some pid } else b) hmem
      simp only [if_pos hid] at hmm
      exact hmm
  · intro r1 hr1 r2 hr2 ha1 ha2 hpeq
    rcases List.mem_append.mp hr1 with h1 | h1 <;> rcases List.mem_append.mp hr2 with h2 | h2
    · exact hsgl r1 h1 r2 h2 ha1 ha2 hpeq
    · rw [List.mem_singleton.mp h2] at hpeq
      exact absurd ⟨hpeq, ha1⟩ (hno r1 h1)
    · rw [List.mem_singleton.mp h1] at hpeq
      exact absurd ⟨hpeq.symm, ha2⟩ (hno r2 h2)
    · rw [List.mem_singleton.mp h1, List.mem_singleton.mp h2]
  · rw [setBed_ids _ bid
      (fun b => { b with status := BedStatus.occupied, currentPatient := some pid })
      (fun b => rfl)]
    exact hnd
  · intro b hb
    obtain ⟨b0, hb0, rfl⟩ := List.mem_map.mp hb
    by_cases h0 : b0.id = bid
    · rw [if_pos h0]
      exact hbd b0 hb0
    · rw [if_neg h0]
      exact hbd b0 hb0

theorem hospInv_discharge {s s' : HospState} {rid : Nat} {summary : String}
    (hinv : hospInv s) (h : dischargePatient s rid summary = .ok s') : hospInv s' := by
  obtain ⟨hocc, hcpl, hsgl, hnd, hbd⟩ := hinv
  obtain ⟨r, hf, hadm, rfl⟩ := dischargePatient_ok h
  have hrm := findRecord_mem hf
  have hrid := findRecord_id hf
  obtain ⟨br, hbr, hbr1, hbr2, hbr3⟩ := hcpl r hrm hadm
  refine ⟨?_, ?_, ?_, ?_, ?_⟩
  · intro b hb
    obtain ⟨b0, hb0, rfl⟩ := List.mem_map.mp hb
    by_cases h0 : b0.id = r.bedId
    · simp [h0]
    · rw [if_neg h0]
      exact hocc b0 hb0
  · intro r' hr' hadm'
    obtain ⟨r0, hr0, rfl⟩ := List.mem_map.mp hr'
    by_cases h0 : r0.id = rid
    · rw [if_pos h0] at hadm'
      cases hadm'
    · rw [if_neg h0] at hadm' ⊢
      obtain ⟨b, hb, hb1, hb2, hb3⟩ := hcpl r0 hr0 hadm'
      have hne : b.id ≠ r.bedId := by
        intro he
        have hbb : b = br := bedsUnique hnd hb hbr (by rw [he, hbr1])
        rw [hbb] at hb3
        rw [hbr3] at hb3
        have hpe : r.patientId = r0.patientId := by
          simpa using hb3
        have hrr : r = r0 := hsgl r hrm r0 hr0 hadm hadm' hpe
        rw [← hrr] at h0
        exact h0 hrid
      refine ⟨b, ?_, hb1, hb2, hb3⟩
      have hmm := List.mem_map_of_mem
        (fun b => if b.id = r.bedId then
          { b with status := BedStatus.available, currentPatient := none } else b) hb
      simp only [if_neg hne] at hmm
      exact hmm
  · intro r1 hr1 r2 hr2 ha1 ha2 hpeq
    obtain ⟨r10, hr10, rfl⟩ := List.mem_map.mp hr1
    obtain ⟨r20, hr20, rfl⟩ := List.mem_map.mp hr2
    by_cases h1 : r10.id = rid
    · rw [if_pos h1] at ha1
      cases ha1
    · by_cases h2 : r20.id = rid
      · rw [if_pos h2] at ha2
        cases ha2
      · rw [if_neg h1] at ha1 hpeq ⊢
        rw [if_neg h2] at ha2 hpeq ⊢
        rw [hsgl r10 hr10 r20 hr20 ha1 ha2 hpeq]
  · rw [setBed_ids _ r.bedId
      (fun b => { b with status := BedStatus.available, currentPatient := none })
      (fun b => rfl)]
    exact hnd
  · intro b hb
    obtain ⟨b0, hb0, rfl⟩ := List.mem_map.mp hb
    by_cases h0 : b0.id = r.bedId
    · rw [if_pos h0]
      exact hbd b0 hb0
    · rw [if_neg h0]
      exact hbd b0 hb0

theorem safeReach_hospInv {s : HospState} (h : SafeReach s) : hospInv s := by
  induction h with
  | init => exact hospInv_init
  | reg s pid hs ih => exact hospInv_reg ih pid
  | newBed s hs ih => exact hospInv_newBed ih
  | del s bid s' hs hok ih => exact hospInv_deleteBed ih hok
  | maint s bid s' hs hok ih => exact hospInv_maint ih hok
  | adm s pid did bid s' hs hok ih => exact hospInv_admitPatient ih hok
  | dis s rid summary s' hs hok ih => exact hospInv_discharge ih hok

/-- C5 (counterexample): a two-request sequence — create a bed with an empty
body, then `updateBed` with body `{ status: OCCUPIED }` — reaches a state
through the public operations whose bed is OCCUPIED with a null occupant,
violating the claimed occupancy invariant; `updateBed` applies client-supplied
state with no guard. -/
theorem C5_updateBed_counterexample :
    HospReachable (runOps [.createBed { status := none, currentPatient := none },
                           .updateBed 0 { status := some .occupied, currentPatient := none }])
    ∧ ¬ bedOccupancyInv (runOps [.createBed { status := none, currentPatient := none },
                           .updateBed 0 { status := some .occupied, currentPatient := none }]) :=
  ⟨⟨_, rfl⟩, by decide⟩

/-- C5 (amended): the claimed occupancy and bed/stay-coupling invariants do
hold in every state reachable through patient registration, bed creation with
schema defaults, bed deletion, maintenance marking, admission and discharge —
i.e. once `updateBed`/`createBed` with client-supplied state or occupant and
`transferPatient` (which, applied to a DISCHARGED stay's stale bed reference,
can free a bed another ADMITTED stay occupies) are excluded. -/
theorem C5_invariants_amended (s : HospState) (h : SafeReach s) :
    bedOccupancyInv s ∧ stayCouplingInv s :=
  ⟨(safeReach_hospInv h).1, (safeReach_hospInv h).2.1⟩

/-- C5 (witness): the amended invariant instantiated at the state reached by
registering patient 7, creating bed 0 and admitting the patient to it. -/
theorem C5_invariants_witness :
    bedOccupancyInv admittedCoupledState ∧ stayCouplingInv admittedCoupledState :=
  C5_invariants_amended _ (SafeReach.adm _ 7 3 0 _
    (SafeReach.newBed _ (SafeReach.reg _ 7 SafeReach.init)) (by decide))


/-- C7 (counterexample): with a COMPLETED appointment occupying the exact
(doctor, date, time) triple — non-cancelled — `createAppointment` still
succeeds, because the availability query only matches SCHEDULED and
CONFIRMED statuses; afterwards two non-cancelled appointments share the
triple. -/
theorem C7_completed_slot_counterexample :
    nonCancelledAt completedAppts 1 20 "09:00" = true
    ∧ (createAppointment [5] [1] completedAppts 5 1 20 "09:00").isOk = true :=
  ⟨by decide, by decide⟩

/-- C7 (amended): for an existing patient and doctor, `createAppointment`
fails with Conflict exactly when an appointment with status SCHEDULED or
CONFIRMED already occupies the (doctor, date, time) triple — COMPLETED and
NO_SHOW appointments do not block the slot.  On success the appointment is
inserted as SCHEDULED, and a state with at most one SCHEDULED/CONFIRMED
appointment per triple keeps that property. -/
theorem C7_createAppointment_conflict_amended (patients doctors : List Nat)
    (appts : List Appointment) (pid did date : Nat) (time : String)
    (hp : pid ∈ patients) (hd : did ∈ doctors) :
    ((createAppointment patients doctors appts pid did date time).isOk
        ↔ slotTaken appts did date time = false)
    ∧ (slotTaken appts did date time = true →
        createAppointment patients doctors appts pid did date time = .error .conflict)
    ∧ (∀ res, createAppointment patients doctors appts pid did date time = .ok res →
        res = appts ++ [{ patientId := pid, doctorId := did, date := date,
                          time := time, status := .scheduled }]
        ∧ (∀ d2 t2 tm2, (activeAt appts d2 t2 tm2).length ≤ 1 →
            (activeAt res d2 t2 tm2).length ≤ 1)) := by
  have hinv : ∀ res, createAppointment patients doctors appts pid did date time = .ok res →
      slotTaken appts did date time = false
      ∧ res = appts ++ [{ patientId := pid, doctorId := did, date := date,
                          time := time, status := .scheduled }] := by
    intro res hok
    unfold createAppointment at hok
    rw [if_neg (by simpa using hp), if_neg (by simpa using hd)] at hok
    by_cases hst : slotTaken appts did date time = true
    · rw [if_pos hst] at hok
      cases hok
    · rw [if_neg hst] at hok
      exact ⟨Bool.of_not_eq_true hst, (Except.ok.inj hok).symm⟩
  refine ⟨?_, ?_, ?_⟩
  · by_cases hst : slotTaken appts did date time = true
    · simp [createAppointment, hp, hd, hst, Except.isOk, Except.toBool]
    · simp only [Bool.of_not_eq_true hst, iff_true]
      rw [createAppointment, if_neg (by simpa using hp), if_neg (by simpa using hd),
        if_neg hst]
      rfl
  · intro hst
    simp [createAppointment, hp, hd, hst]
  · intro res hok
    obtain ⟨hfree, rfl⟩ := hinv res hok
    refine ⟨rfl, ?_⟩
    intro d2 t2 tm2 hlen
    unfold activeAt at hlen ⊢
    rw [List.filter_append, List.length_append]
    by_cases hmatch : (fun a : Appointment => a.doctorId == d2 && a.date == t2
        && a.time == tm2 && (a.status == ApptStatus.scheduled
          || a.status == ApptStatus.confirmed))
        { patientId := pid, doctorId := did, date := date, time := time,
          status := ApptStatus.scheduled } = true
    · have hz : (appts.filter (fun a => a.doctorId == d2 && a.date == t2
          && a.time == tm2 && (a.status == ApptStatus.scheduled
            || a.status == ApptStatus.confirmed))).length = 0 := by
        rw [List.length_eq_zero, List.filter_eq_nil_iff]
        intro a ha
        simp only [Bool.and_eq_true, beq_iff_eq] at hmatch
        obtain ⟨⟨⟨hd2, ht2⟩, htm2⟩, -⟩ := hmatch
        rw [← hd2, ← ht2, ← htm2]
        intro hcontra
        have htk : slotTaken appts did date time = true := by
          rw [slotTaken, List.any_eq_true]
          exact ⟨a, ha, hcontra⟩
        rw [htk] at hfree
        cases hfree
      have hone : (List.filter (fun a : Appointment => a.doctorId == d2 && a.date == t2
          && a.time == tm2 && (a.status == ApptStatus.scheduled
            || a.status == ApptStatus.confirmed))
          [({ patientId := pid, doctorId := did, date := date, time := time,
              status := ApptStatus.scheduled } : Appointment)]).length ≤ 1 := by
        have hfl := List.length_filter_le (fun a : Appointment => a.doctorId == d2
          && a.date == t2 && a.time == tm2 && (a.status == ApptStatus.scheduled
            || a.status == ApptStatus.confirmed))
          [({ patientId := pid, doctorId := did, date := date, time := time,
              status := ApptStatus.scheduled } : Appointment)]
        simpa using hfl
      omega
    · have hz1 : List.filter (fun a : Appointment => a.doctorId == d2 && a.date == t2
          && a.time == tm2 && (a.status == ApptStatus.scheduled
            || a.status == ApptStatus.confirmed))
          [({ patientId := pid, doctorId := did, date := date, time := time,
              status := ApptStatus.scheduled } : Appointment)] = [] := by
        rw [List.filter_eq_nil_iff]
        intro a ha
        rw [List.mem_singleton] at ha
        rw [ha]
        exact fun hc => hmatch hc
      rw [hz1]
      simpa using hlen

/-- C7 (witness): with a SCHEDULED appointment at the triple, a second
booking request for the same slot is rejected with Conflict. -/
theorem C7_createAppointment_conflict_witness :
    createAppointment [5] [1] scheduledAppts 5 1 20 "09:00" = .error .conflict :=
  (C7_createAppointment_conflict_amended [5] [1] scheduledAppts 5 1 20 "09:00"
    (by decide) (by decide)).2.1 (by decide)

theorem slotLoop_closed (dur : Nat) (hdur : 1 ≤ dur) :
    ∀ fuel cur endT, endT - cur ≤ fuel →
    slotLoop fuel cur endT dur
      = (List.range ((endT - cur + dur - 1) / dur)).map (fun k => cur + k * dur) := by
  intro fuel
  induction fuel with
  | zero =>
    intro cur endT hle
    have h0 : endT - cur = 0 := Nat.le_zero.mp hle
    rw [slotLoop, h0]
    have hz : (0 + dur - 1) / dur = 0 := Nat.div_eq_of_lt (by omega)
    rw [hz]
    rfl
  | succ f ih =>
    intro cur endT hle
    rw [slotLoop]
    by_cases hcur : cur < endT
    · rw [if_pos hcur]
      rw [ih (cur + dur) endT (by omega)]
      have hn : (endT - cur + dur - 1) / dur = (endT - (cur + dur) + dur - 1) / dur + 1 := by
        rcases Nat.lt_or_ge (endT - cur) (dur + 1) with hsmall | hbig
        · have h1 : (endT - (cur + dur) + dur - 1) / dur = 0 := by
            have ha : endT - (cur + dur) = 0 := by omega
            rw [ha]
            exact Nat.div_eq_of_lt (by omega)
          have h2 : (endT - cur + dur - 1) / dur = 1 := by
            refine Nat.div_eq_of_lt_le (by omega) (by omega)
          rw [h1, h2]
        · have h1 : endT - (cur + dur) + dur - 1 = endT - cur - 1 := by omega
          have h2 : endT - cur + dur - 1 = (endT - cur - 1) + dur := by omega
          rw [h1, h2]
          exact Nat.add_div_right _ (by omega)
      rw [hn, List.range_succ_eq_map]
      simp only [List.map_cons, Nat.zero_mul, Nat.add_zero, List.map_map]
      refine congrArg (cur :: ·) ?_
      refine List.map_congr_left (fun k hk => ?_)
      simp [Function.comp]
      ring
    · rw [if_neg hcur]
      have h0 : endT - cur = 0 := by omega
      rw [h0]
      have hz : (0 + dur - 1) / dur = 0 := Nat.div_eq_of_lt (by omega)
      rw [hz]
      rfl

theorem generateTimeSlots_spec (startTime endTime : String) (dur : Nat) (hdur : 1 ≤ dur) :
    generateTimeSlots startTime endTime dur
      = specSlotTokens (parseTime startTime) (parseTime endTime) dur := by
  unfold generateTimeSlots specSlotTokens
  rw [slotLoop_closed dur hdur (parseTime endTime) (parseTime startTime) (parseTime endTime)
    (Nat.sub_le _ _)]
  rw [List.map_map]
  rfl

/-- C8 (counterexample): Scenario E's Monday doctor with a COMPLETED —
non-cancelled — appointment at 09:00: `getAvailableSlots` reports both
"09:00" and "09:30" as unbooked, though the claim requires "09:00" to be
marked booked; only SCHEDULED and CONFIRMED appointments are counted. -/
theorem C8_completed_booking_counterexample :
    getAvailableSlots mondayDoctor 1 completedAppts "Monday" 20
      = { available := true,
          slots := [{ time := "09:00", available := true },
                    { time := "09:30", available := true }] }
    ∧ nonCancelledAt completedAppts 1 20 "09:00" = true :=
  ⟨by decide, by decide⟩

/-- C8 (amended): with no availability window for the weekday the result is
the empty slot list with the not-available indicator; with a window (and a
positive slot duration, which the schema's `min: 5` guarantees) the slot
times are exactly the tokens from startTime stepping by slotDuration while
strictly before endTime, and a slot is marked booked exactly when an
appointment of that doctor on that date with status SCHEDULED or CONFIRMED —
not merely non-cancelled — carries its token. -/
theorem C8_available_slots_amended (doctor : Doctor) (did : Nat)
    (appts : List Appointment) (dayName : String) (date : Nat)
    (hdur : 1 ≤ doctor.slotDuration) :
    (doctor.availability.find? (fun a => a.day == dayName) = none →
        getAvailableSlots doctor did appts dayName date = { available := false, slots := [] })
    ∧ (∀ w, doctor.availability.find? (fun a => a.day == dayName) = some w →
        (getAvailableSlots doctor did appts dayName date).available = true
        ∧ (getAvailableSlots doctor did appts dayName date).slots.map SlotEntry.time
            = specSlotTokens (parseTime w.startTime) (parseTime w.endTime) doctor.slotDuration
        ∧ (∀ e ∈ (getAvailableSlots doctor did appts dayName date).slots,
            (e.available = false
              ↔ ∃ a ∈ appts, a.doctorId = did ∧ a.date = date ∧ a.time = e.time
                  ∧ (a.status = .scheduled ∨ a.status = .confirmed)))) := by
  refine ⟨?_, ?_⟩
  · intro hnone
    unfold getAvailableSlots
    rw [hnone]
  · intro w hw
    refine ⟨?_, ?_, ?_⟩
    · unfold getAvailableSlots
      rw [hw]
    · show (SlotsResult.slots _).map SlotEntry.time = _
      unfold getAvailableSlots
      rw [hw]
      show ((generateTimeSlots w.startTime w.endTime doctor.slotDuration).map _).map _ = _
      rw [List.map_map]
      rw [← generateTimeSlots_spec w.startTime w.endTime doctor.slotDuration hdur]
      exact (List.map_congr_left (fun t _ => rfl)).trans (List.map_id _)
    · intro e he
      unfold getAvailableSlots at he
      rw [hw] at he
      obtain ⟨t, ht, rfl⟩ := List.mem_map.mp he
      show (!((appts.filter _).map Appointment.time).contains t) = false ↔ _
      rw [Bool.not_eq_false']
      rw [List.contains_iff_exists_mem_beq]
      constructor
      · rintro ⟨t', ht', hbeq⟩
        obtain ⟨a, ha, rfl⟩ := List.mem_map.mp ht'
        have hfa := (List.mem_filter.mp ha).2
        simp only [Bool.and_eq_true, beq_iff_eq, Bool.or_eq_true] at hfa hbeq
        exact ⟨a, (List.mem_filter.mp ha).1, hfa.1.1, hfa.1.2, hbeq.symm, hfa.2⟩
      · rintro ⟨a, ha, hd, hdt, htm, hst⟩
        refine ⟨a.time, ?_, ?_⟩
        · refine List.mem_map_of_mem Appointment.time ?_
          refine List.mem_filter.mpr ⟨ha, ?_⟩
          simp [hd, hdt, hst]
        · simp [htm]

/-- C8 (witness): the Monday 09:00–10:00 doctor with 30-minute slots and a
SCHEDULED 09:00 booking — the slot tokens are the spec's, and a slot is
booked exactly when the SCHEDULED appointment carries its time. -/
theorem C8_available_slots_witness :
    (getAvailableSlots mondayDoctor 1 scheduledAppts "Monday" 20).available = true
    ∧ (getAvailableSlots mondayDoctor 1 scheduledAppts "Monday" 20).slots.map SlotEntry.time
        = specSlotTokens (parseTime "09:00") (parseTime "10:00") 30
    ∧ (∀ e ∈ (getAvailableSlots mondayDoctor 1 scheduledAppts "Monday" 20).slots,
        (e.available = false
          ↔ ∃ a ∈ scheduledAppts, a.doctorId = 1 ∧ a.date = 20 ∧ a.time = e.time
              ∧ (a.status = .scheduled ∨ a.status = .confirmed))) :=
  (C8_available_slots_amended mondayDoctor 1 scheduledAppts "Monday" 20 (by decide)).2
    { day := "Monday", startTime := "09:00", endTime := "10:00" } (by decide)
